import Mathlib

/-!
Verification of the fnt numerical toolbox against its specification.

Doubles are modelled as exact rationals, C strings as Lean strings whose
character lists carry no NUL, and each method handle as a record that mirrors
the corresponding C struct.  Every function below is a direct transcription of
the C function of the same name (namespaces stand in for the per-method
translation units).
-/

/-- Return codes from fnt_util.h: FNT_SUCCESS, FNT_FAILURE, FNT_CONTINUE, FNT_DONE. -/
inductive FntStatus
  | success
  | failure
  | cont
  | done
deriving DecidableEq

/-- A value passed through a void pointer: it can be read as a double or as an int,
mirroring the type cast inside the FNT_HPARAM_SET / FNT_HPARAM_GET macros. -/
structure CValue where
  asDouble : ℚ
  asInt : ℤ
deriving DecidableEq

/-- C strncmp(a, b, n) == 0, transcribed character by character.  The lists hold
the characters before the terminating NUL; an exhausted list plays the role of
the terminator. -/
def strncmpEq : List Char → List Char → Nat → Bool
  | _, _, 0 => true
  | [], [], _ + 1 => true
  | [], _ :: _, _ + 1 => false
  | _ :: _, [], _ + 1 => false
  | a :: as, b :: bs, n + 1 => if a = b then strncmpEq as bs n else false

/-- The guard used by FNT_HPARAM_SET, FNT_HPARAM_GET and FNT_RESULT_GET in
fnt_util.h: strncmp(name, id, strlen(name)) == 0. -/
def fntMatch (name id : String) : Bool :=
  strncmpEq name.toList id.toList name.toList.length

/-! ## Trapezoidal rule (methods/trapezoidal.c) -/

inductive TrapState
  | initial
  | running
  | done
deriving DecidableEq

/-- The trapezoidal_t struct. -/
structure Trapezoidal where
  state : TrapState
  first_fx : ℚ
  sum : ℚ
  last_fx : ℚ
  curr_subinterval : ℤ
  x_0 : ℚ
  x_1 : ℚ
  n : ℤ
  area : ℚ
deriving DecidableEq

namespace Trapezoidal

/-- method_init: calloc zeroes the struct, then state := initial, curr := 0. -/
def method_init : Trapezoidal :=
  { state := TrapState.initial, first_fx := 0, sum := 0, last_fx := 0,
    curr_subinterval := 0, x_0 := 0, x_1 := 0, n := 0, area := 0 }

/-- method_hparam_set: the FNT_HPARAM_SET macros store on a name match but do
not return, so control always reaches the final return FNT_FAILURE. -/
def method_hparam_set (t : Trapezoidal) (id : String) (value : CValue) :
    FntStatus × Trapezoidal :=
  let t1 := if fntMatch "lower" id then { t with x_0 := value.asDouble } else t
  let t2 := if fntMatch "upper" id then { t1 with x_1 := value.asDouble } else t1
  let t3 := if fntMatch "subintervals" id then { t2 with n := value.asInt } else t2
  let t4 := if fntMatch "n" id then { t3 with n := value.asInt } else t3
  (FntStatus.failure, t4)

/-- method_hparam_get: same macro pattern, reading instead of writing. -/
def method_hparam_get (t : Trapezoidal) (id : String) (out : CValue) :
    FntStatus × CValue :=
  let o1 := if fntMatch "lower" id then { out with asDouble := t.x_0 } else out
  let o2 := if fntMatch "upper" id then { o1 with asDouble := t.x_1 } else o1
  let o3 := if fntMatch "subintervals" id then { o2 with asInt := t.n } else o2
  let o4 := if fntMatch "n" id then { o3 with asInt := t.n } else o3
  (FntStatus.failure, o4)

/-- method_next: fails after completion, emits x_0 in the initial state, and
x_0 + curr * (x_1 - x_0) / n afterwards. -/
def method_next (t : Trapezoidal) : Option ℚ :=
  if t.state = TrapState.done then none
  else if t.state = TrapState.initial then some t.x_0
  else some (t.x_0 + (t.curr_subinterval : ℚ) * (t.x_1 - t.x_0) / (t.n : ℚ))

/-- method_value: records the first sample, accumulates interior samples, and
on the final sample computes area = 0.5 * h * (f_0 + f_n + 2 * sum). -/
def method_value (t : Trapezoidal) (vec fv : ℚ) : Option Trapezoidal :=
  if t.state = TrapState.done then none
  else if t.state = TrapState.initial then
    some { t with first_fx := fv, sum := 0, curr_subinterval := 1,
                  state := TrapState.running }
  else if t.n ≤ t.curr_subinterval then
    some { t with last_fx := fv,
                  area := 1/2 * ((t.x_1 - t.x_0) / (t.n : ℚ))
                            * (t.first_fx + fv + 2 * t.sum),
                  state := TrapState.done }
  else
    some { t with sum := t.sum + fv, curr_subinterval := t.curr_subinterval + 1 }

/-- method_done. -/
def method_done (t : Trapezoidal) : FntStatus :=
  if t.state = TrapState.done then FntStatus.done else FntStatus.cont

/-- method_result: refuses before completion; FNT_RESULT_GET writes the area on
a name match but does not return, so the return value is always FNT_FAILURE. -/
def method_result (t : Trapezoidal) (id : String) (out : ℚ) : FntStatus × ℚ :=
  if t.state ≠ TrapState.done then (FntStatus.failure, out)
  else
    let o1 := if fntMatch "area" id then t.area else out
    (FntStatus.failure, o1)

end Trapezoidal

/-! ## Simpson's rule (methods/simpson.c, first translation unit) -/

inductive SimpsonState
  | initial
  | running
  | done
deriving DecidableEq

/-- The simpson_t struct. -/
structure Simpson where
  state : SimpsonState
  first_fx : ℚ
  sum1 : ℚ
  sum2 : ℚ
  last_fx : ℚ
  curr_subinterval : ℤ
  x_0 : ℚ
  x_1 : ℚ
  n : ℤ
  area : ℚ
deriving DecidableEq

namespace Simpson

/-- method_init. -/
def method_init : Simpson :=
  { state := SimpsonState.initial, first_fx := 0, sum1 := 0, sum2 := 0,
    last_fx := 0, curr_subinterval := 0, x_0 := 0, x_1 := 0, n := 0, area := 0 }

/-- method_hparam_set: identical macro pattern to the trapezoidal method. -/
def method_hparam_set (s : Simpson) (id : String) (value : CValue) :
    FntStatus × Simpson :=
  let s1 := if fntMatch "lower" id then { s with x_0 := value.asDouble } else s
  let s2 := if fntMatch "upper" id then { s1 with x_1 := value.asDouble } else s1
  let s3 := if fntMatch "subintervals" id then { s2 with n := value.asInt } else s2
  let s4 := if fntMatch "n" id then { s3 with n := value.asInt } else s3
  (FntStatus.failure, s4)

/-- method_next: same abscissa schedule as the trapezoidal method. -/
def method_next (s : Simpson) : Option ℚ :=
  if s.state = SimpsonState.done then none
  else if s.state = SimpsonState.initial then some s.x_0
  else some (s.x_0 + (s.curr_subinterval : ℚ) * (s.x_1 - s.x_0) / (s.n : ℚ))

/-- method_value: first sample to first_fx, final sample closes the area with
(h / 3) * (f_0 + f_n + 2 * S1 + 4 * S2), interior samples go to S1 when the
subinterval index is even and to S2 when it is odd. -/
def method_value (s : Simpson) (vec fv : ℚ) : Option Simpson :=
  if s.state = SimpsonState.done then none
  else if s.state = SimpsonState.initial then
    some { s with first_fx := fv, sum1 := 0, sum2 := 0, curr_subinterval := 1,
                  state := SimpsonState.running }
  else if s.n ≤ s.curr_subinterval then
    some { s with last_fx := fv,
                  area := (s.x_1 - s.x_0) / (s.n : ℚ) / 3
                            * (s.first_fx + fv + 2 * s.sum1 + 4 * s.sum2),
                  state := SimpsonState.done }
  else if s.curr_subinterval % 2 = 0 then
    some { s with sum1 := s.sum1 + fv, curr_subinterval := s.curr_subinterval + 1 }
  else
    some { s with sum2 := s.sum2 + fv, curr_subinterval := s.curr_subinterval + 1 }

/-- method_done. -/
def method_done (s : Simpson) : FntStatus :=
  if s.state = SimpsonState.done then FntStatus.done else FntStatus.cont

/-- method_result: same structure as the trapezoidal one. -/
def method_result (s : Simpson) (id : String) (out : ℚ) : FntStatus × ℚ :=
  if s.state ≠ SimpsonState.done then (FntStatus.failure, out)
  else
    let o1 := if fntMatch "area" id then s.area else out
    (FntStatus.failure, o1)

end Simpson

/-! ## Bisection (second translation unit in methods/simpson.c) -/

inductive BisectionState
  | initial
  | initial2
  | running
  | done
deriving DecidableEq

/-- The bisection_t struct. -/
structure Bisection where
  state : BisectionState
  upper_bound : ℚ
  lower_bound : ℚ
  x_tol : ℚ
  f_tol : ℚ
  a : ℚ
  b : ℚ
  f_a : ℚ
  f_b : ℚ
  root_x : ℚ
deriving DecidableEq

namespace Bisection

/-- method_init. -/
def method_init : Bisection :=
  { state := BisectionState.initial, upper_bound := 1000000,
    lower_bound := -1000000, x_tol := 1/1000000, f_tol := 1/1000000,
    a := 0, b := 0, f_a := 0, f_b := 0, root_x := 0 }

/-- method_next: note that there is no completion check, so it succeeds in
every state, emitting a, then b, then the midpoint 0.5 * a + 0.5 * b. -/
def method_next (p : Bisection) : FntStatus × Bisection × ℚ :=
  if p.state = BisectionState.initial then
    let p2 := { p with a := p.lower_bound, b := p.upper_bound }
    (FntStatus.success, p2, p2.a)
  else if p.state = BisectionState.initial2 then
    (FntStatus.success, p, p.b)
  else
    (FntStatus.success, p, 1/2 * p.a + 1/2 * p.b)

/-- method_value. -/
def method_value (p : Bisection) (vec fv : ℚ) : FntStatus × Bisection :=
  if p.state = BisectionState.initial2 then
    let p2 := { p with f_b := fv }
    let p3 := if p2.f_b < p2.f_a then
        { p2 with a := p2.b, b := p2.a, f_a := p2.f_b, f_b := p2.f_a }
      else p2
    if 0 < p3.f_a then (FntStatus.failure, p3)
    else if p3.f_b < 0 then (FntStatus.failure, p3)
    else (FntStatus.success, { p3 with state := BisectionState.running })
  else if p.state = BisectionState.initial then
    (FntStatus.success, { p with f_a := fv, state := BisectionState.initial2 })
  else if p.state ≠ BisectionState.running then
    (FntStatus.failure, p)
  else if fv < 0 then
    (FntStatus.success, { p with a := vec, f_a := fv })
  else if 0 < fv then
    (FntStatus.success, { p with b := vec, f_b := fv })
  else
    (FntStatus.success, { p with a := vec, b := vec, f_a := 0, f_b := 0,
                                 root_x := vec, state := BisectionState.done })

/-- method_done: may itself finish the search when a tolerance is met. -/
def method_done (p : Bisection) : FntStatus × Bisection :=
  if p.state = BisectionState.initial ∨ p.state = BisectionState.initial2 then
    (FntStatus.cont, p)
  else if p.state = BisectionState.done then
    (FntStatus.done, p)
  else if |p.b - p.a| < p.x_tol then
    (FntStatus.done, { p with root_x := 1/2 * (p.b + p.a),
                              state := BisectionState.done })
  else if |p.f_b - p.f_a| < p.f_tol then
    (FntStatus.done, { p with root_x := 1/2 * (p.b + p.a),
                              state := BisectionState.done })
  else
    (FntStatus.cont, p)

end Bisection

/-! ## Secant (methods/secant.c), configuration surface -/

inductive SecantState
  | initial
  | running
  | done
deriving DecidableEq

/-- The secant_t struct. -/
structure Secant where
  state : SecantState
  x_prev : ℚ
  fx_prev : ℚ
  x_next : ℚ
  x_0 : ℚ
  x_1 : ℚ
  f_tol : ℚ
  root_x : ℚ
deriving DecidableEq

namespace Secant

/-- method_hparam_set: the same store-then-fail macro pattern. -/
def method_hparam_set (s : Secant) (id : String) (value : CValue) :
    FntStatus × Secant :=
  let s1 := if fntMatch "x_0" id then { s with x_0 := value.asDouble } else s
  let s2 := if fntMatch "x_1" id then { s1 with x_1 := value.asDouble } else s1
  let s3 := if fntMatch "f_tol" id then { s2 with f_tol := value.asDouble } else s2
  (FntStatus.failure, s3)

end Secant

/-! ## Differential evolution (methods/de.c, current translation unit) -/

inductive DeState
  | initial
  | running
  | done
deriving DecidableEq

/-- RAND_MAX for FNT_RAND; glibc value. -/
def deRandMax : ℕ := 2147483647

/-- The de_t struct.  Generations are lists of NP vectors of dimension dim. -/
structure De where
  dim : ℕ
  state : DeState
  allocated_NP : ℕ
  iterations : ℤ
  NP : ℕ
  F : ℚ
  lambda : ℚ
  start_point : List ℚ
  lower_bounds : List ℚ
  upper_bounds : List ℚ
  has_start_point : Bool
  has_lower_bounds : Bool
  has_upper_bounds : Bool
  x : List (List ℚ)
  x_prev : List (List ℚ)
  fx : List ℚ
  fx_prev : List ℚ
  best : ℕ
  current : ℕ
  v : List ℚ
  min_fx : ℚ
  min_x : List ℚ
deriving DecidableEq

namespace De

/-- method_init: NP = 10 * dim, iterations = 1000, F = 0.5, lambda = 0.1,
generation arrays calloc-ed to zero vectors. -/
def method_init (dims : ℕ) : De :=
  { dim := dims, state := DeState.initial, allocated_NP := dims * 10,
    iterations := 1000, NP := dims * 10, F := 1/2, lambda := 1/10,
    start_point := [], lower_bounds := [], upper_bounds := [],
    has_start_point := false, has_lower_bounds := false,
    has_upper_bounds := false,
    x := List.replicate (dims * 10) (List.replicate dims 0),
    x_prev := List.replicate (dims * 10) (List.replicate dims 0),
    fx := List.replicate (dims * 10) 0,
    fx_prev := List.replicate (dims * 10) 0,
    best := 0, current := 0, v := List.replicate dims 0,
    min_fx := 0, min_x := List.replicate dims 0 }

/-- One component of de_fill_first_gen: the j-th loop iteration consuming the
random draw r (0 ≤ r ≤ RAND_MAX).  Mirrors both the start-point branch and the
uniform branch with its sequential lower/upper adjustments. -/
def de_fill_component (p : De) (j : ℕ) (r : ℕ) : ℚ :=
  if p.has_start_point then
    let rnd : ℚ := (r : ℚ) / (deRandMax : ℚ) - 1/2
    let vj := p.start_point.getD j 0 + rnd
    let vj2 := if p.has_lower_bounds ∧ vj < p.lower_bounds.getD j 0 then
        p.lower_bounds.getD j 0 else vj
    let vj3 := if p.has_upper_bounds ∧ p.upper_bounds.getD j 0 < vj2 then
        p.upper_bounds.getD j 0 else vj2
    vj3
  else
    let rnd : ℚ := (r : ℚ) / (deRandMax : ℚ)
    let lower0 : ℚ := -1
    let upper0 : ℚ := 1
    let lower1 := if p.has_lower_bounds then p.lower_bounds.getD j 0 else lower0
    let upper1 := if p.has_lower_bounds ∧ ¬p.has_upper_bounds then lower1 + 1
      else upper0
    let upper2 := if p.has_upper_bounds then p.upper_bounds.getD j 0 else upper1
    let lower2 := if p.has_upper_bounds ∧ ¬p.has_lower_bounds then lower1 - 1
      else lower1
    lower2 + rnd * (upper2 - lower2)

/-- de_fill_first_gen: fills the trial vector v component by component, the
j-th component consuming the j-th random draw of the stream. -/
def de_fill_first_gen (p : De) (rands : List ℕ) : List ℚ :=
  (List.range p.dim).map (fun j => de_fill_component p j (rands.getD j 0))

/-- method_next restricted to the initial state: fill the next random
initialization vector and copy it out.  (The running branch draws r1, r2, r3
with rejection loops and is not needed by the claims below.) -/
def method_next_initial (p : De) (rands : List ℕ) : FntStatus × De × List ℚ :=
  if p.state = DeState.initial then
    let filled := de_fill_first_gen p rands
    (FntStatus.success, { p with v := filled }, filled)
  else
    (FntStatus.failure, p, [])

/-- method_value, transcribed from de.c lines 974-1032: accept or reject the
incoming vector, update best, advance the index, and on a full generation swap
the generation arrays and decrement the iteration budget.  Note the state
change to running inside the acceptance branch. -/
def method_value (p : De) (vec : List ℚ) (value : ℚ) : FntStatus × De :=
  let curr := p.current
  let p1 : De :=
    if value < p.fx_prev.getD curr 0 ∨ p.state = DeState.initial then
      let pa := { p with x := p.x.set curr vec, fx := p.fx.set curr value }
      if p.state = DeState.initial then { pa with state := DeState.running }
      else pa
    else
      { p with x := p.x.set curr (p.x_prev.getD curr []),
               fx := p.fx.set curr (p.fx_prev.getD curr 0) }
  let p2 : De := if value < p1.fx.getD p1.best 0 then { p1 with best := curr } else p1
  let p3 : De := { p2 with current := p2.current + 1 }
  let p4 : De :=
    if p3.NP ≤ p3.current then
      let p3a := if p3.state = DeState.initial then
          { p3 with state := DeState.running } else p3
      { p3a with x := p3a.x_prev, x_prev := p3a.x,
                 fx := p3a.fx_prev, fx_prev := p3a.fx,
                 current := 0, iterations := p3a.iterations - 1 }
    else p3
  (FntStatus.success, p4)

/-- method_done. -/
def method_done (p : De) : FntStatus × De :=
  if p.state = DeState.initial then (FntStatus.cont, p)
  else if p.iterations ≤ 0 then
    (FntStatus.done,
     { p with min_fx := p.fx.getD p.best 0,
              min_x := p.x.getD p.best [], state := DeState.done })
  else (FntStatus.cont, p)

end De

/-! ## Nelder-Mead (methods/nelder-mead.c) -/

/-- Dense vector helpers from fnt_vect.h over same-length lists. -/
def fnt_vect_add (a b : List ℚ) : List ℚ := List.zipWith (· + ·) a b

def fnt_vect_sub (a b : List ℚ) : List ℚ := List.zipWith (· - ·) a b

def fnt_vect_scale (v : List ℚ) (s : ℚ) : List ℚ := v.map (fun c => s * c)

/-- The nm_sample_t struct. -/
structure NmSample where
  params : List ℚ
  value : ℚ
deriving DecidableEq

inductive NmState
  | initial
  | reflect
  | expand
  | contract_out
  | contract_in
  | shrink
  | shrink2
deriving DecidableEq

/-- The nelder_mead_t struct.  The simplex is kept as an ordered list. -/
structure NelderMead where
  dimensions : ℕ
  iterations : ℤ
  simplex : List NmSample
  seed : List ℚ
  state : NmState
  x_r : NmSample
  x_e : NmSample
  x_c : NmSample
  s_shrink : List ℚ
  alpha : ℚ
  beta : ℚ
  gamma : ℚ
  delta : ℚ
  dist_threshold : ℚ
  max_iterations : ℤ
deriving DecidableEq

namespace NelderMead

/-- Stable ascending insertion used to model nm_simplex_sort (the source is a
stable bubble sort ordered by sample value; both compute the same list). -/
def nm_sort_insert (a : NmSample) : List NmSample → List NmSample
  | [] => [a]
  | b :: bs => if a.value ≤ b.value then a :: b :: bs else b :: nm_sort_insert a bs

/-- nm_simplex_sort: sort the simplex by value, ascending and stable. -/
def nm_simplex_sort : List NmSample → List NmSample
  | [] => []
  | a :: as => nm_sort_insert a (nm_simplex_sort as)

/-- method_init for a given dimensionality. -/
def method_init (dims : ℕ) : NelderMead :=
  { dimensions := dims, iterations := 0, simplex := [],
    seed := List.replicate dims 0, state := NmState.initial,
    x_r := ⟨List.replicate dims 0, 0⟩, x_e := ⟨List.replicate dims 0, 0⟩,
    x_c := ⟨List.replicate dims 0, 0⟩, s_shrink := List.replicate dims 0,
    alpha := 1, beta := 1/2, gamma := 2, delta := 1/2,
    dist_threshold := 1/100000, max_iterations := 30 }

/-- method_value, transcribed from nelder-mead.c lines 324-468. -/
def method_value (nm : NelderMead) (params : List ℚ) (value : ℚ) :
    FntStatus × NelderMead :=
  let nm := { nm with iterations := nm.iterations + 1 }
  let new_sample : NmSample := ⟨params, value⟩
  if nm.state = NmState.shrink2 then
    (FntStatus.success,
     { nm with simplex := nm.simplex.set (nm.simplex.length - 2) new_sample,
               state := NmState.reflect })
  else if nm.state = NmState.shrink then
    (FntStatus.success,
     { nm with simplex := nm.simplex.set (nm.simplex.length - 1) new_sample,
               state := NmState.shrink2 })
  else if nm.simplex.length ≤ nm.dimensions then
    let nm2 := { nm with simplex := nm.simplex ++ [new_sample] }
    if nm.dimensions + 1 ≤ nm2.simplex.length then
      (FntStatus.success, { nm2 with state := NmState.reflect })
    else
      (FntStatus.success, nm2)
  else
    let nm3 := if nm.state ≠ NmState.shrink ∧ nm.state ≠ NmState.shrink2 then
        { nm with simplex := nm_simplex_sort nm.simplex } else nm
    let h := nm3.simplex.getD (nm3.simplex.length - 1) ⟨[], 0⟩
    let s := nm3.simplex.getD (nm3.simplex.length - 2) ⟨[], 0⟩
    let l := nm3.simplex.getD 0 ⟨[], 0⟩
    let r := new_sample
    if nm3.state = NmState.reflect ∧
        l.value ≤ r.value ∧ r.value < s.value then
      (FntStatus.success,
       { nm3 with x_r := r,
                  simplex := nm3.simplex.set (nm3.simplex.length - 1) r })
    else
      let nm4 := if nm3.state = NmState.reflect then { nm3 with x_r := r } else nm3
      if nm4.state = NmState.expand then
        let nm5 := { nm4 with x_e := r }
        if nm5.x_e.value < nm5.x_r.value then
          (FntStatus.success,
           { nm5 with simplex := nm5.simplex.set (nm5.simplex.length - 1) nm5.x_e,
                      state := NmState.reflect })
        else
          (FntStatus.success,
           { nm5 with simplex := nm5.simplex.set (nm5.simplex.length - 1) nm5.x_r,
                      state := NmState.reflect })
      else if nm4.state = NmState.contract_out ∧ r.value < nm4.x_r.value then
        (FntStatus.success,
         { nm4 with x_c := r,
                    simplex := nm4.simplex.set (nm4.simplex.length - 1) r,
                    state := NmState.reflect })
      else if nm4.state = NmState.contract_in ∧ r.value < h.value then
        (FntStatus.success,
         { nm4 with x_c := r,
                    simplex := nm4.simplex.set (nm4.simplex.length - 1) r,
                    state := NmState.reflect })
      else
        let nm6 := if nm4.state = NmState.contract_out ∨
            nm4.state = NmState.contract_in then { nm4 with x_c := r } else nm4
        if r.value < l.value then
          (FntStatus.success, { nm6 with state := NmState.expand })
        else if s.value ≤ r.value then
          if s.value ≤ r.value ∧ r.value < h.value then
            (FntStatus.success, { nm6 with state := NmState.contract_out })
          else
            (FntStatus.success, { nm6 with state := NmState.contract_in })
        else
          (FntStatus.success, { nm6 with state := NmState.shrink })

/-- method_next, transcribed from nelder-mead.c lines 471-587.  The second
argument is the caller-provided buffer (needed by the bootstrap branch that
copies the buffer into the seed when lengths disagree). -/
def method_next (nm : NelderMead) (vecArg : List ℚ) :
    FntStatus × NelderMead × List ℚ :=
  if nm.state = NmState.initial ∧ nm.simplex.length < nm.dimensions + 1 then
    if 0 < nm.simplex.length then
      let pos := nm.simplex.length - 1
      let out := nm.seed.set pos (nm.seed.getD pos 0 + (nm.simplex.length : ℚ))
      (FntStatus.success, nm, out)
    else if nm.seed.length = vecArg.length then
      (FntStatus.success, nm, nm.seed)
    else
      (FntStatus.success, { nm with seed := vecArg }, vecArg)
  else if nm.simplex.length ≠ nm.dimensions + 1 then
    (FntStatus.success, nm, nm.seed)
  else
    let nm3 := if nm.state ≠ NmState.shrink ∧ nm.state ≠ NmState.shrink2 then
        { nm with simplex := nm_simplex_sort nm.simplex } else nm
    let h := nm3.simplex.getD (nm3.simplex.length - 1) ⟨[], 0⟩
    let s := nm3.simplex.getD (nm3.simplex.length - 2) ⟨[], 0⟩
    let centroid := fnt_vect_scale
        ((nm3.simplex.take (nm3.simplex.length - 1)).foldl
          (fun acc smp => fnt_vect_add acc smp.params)
          (List.replicate nm3.dimensions 0))
        (1 / ((nm3.simplex.length : ℚ) - 1))
    match nm3.state with
    | NmState.reflect =>
      (FntStatus.success, nm3,
       fnt_vect_add centroid (fnt_vect_scale (fnt_vect_sub centroid h.params) nm3.alpha))
    | NmState.expand =>
      (FntStatus.success, nm3,
       fnt_vect_add centroid
         (fnt_vect_scale (fnt_vect_sub nm3.x_r.params centroid) nm3.gamma))
    | NmState.contract_out =>
      (FntStatus.success, nm3,
       fnt_vect_add centroid
         (fnt_vect_scale (fnt_vect_sub nm3.x_r.params centroid) nm3.beta))
    | NmState.contract_in =>
      (FntStatus.success, nm3,
       fnt_vect_add centroid
         (fnt_vect_scale (fnt_vect_sub h.params centroid) nm3.beta))
    | NmState.shrink =>
      let stored := fnt_vect_scale (fnt_vect_add nm3.x_r.params s.params) (1/2)
      let out := fnt_vect_scale (fnt_vect_add nm3.x_r.params h.params) (1/2)
      (FntStatus.success, { nm3 with s_shrink := stored }, out)
    | NmState.shrink2 =>
      (FntStatus.success,
       { nm3 with s_shrink := List.replicate nm3.dimensions 0 }, nm3.s_shrink)
    | NmState.initial =>
      (FntStatus.success, nm3, vecArg)

end NelderMead

/-! ## Brent-Dekker (methods/brent-dekker.c, first translation unit) -/

inductive BrentDekkerState
  | initial
  | initial2
  | starting
  | running
  | done
deriving DecidableEq

/-- The brent_dekker_t struct. -/
structure BrentDekker where
  state : BrentDekkerState
  macheps : ℚ
  t : ℚ
  a : ℚ
  b : ℚ
  c : ℚ
  f_a : ℚ
  f_b : ℚ
  f_c : ℚ
  d : ℚ
  e : ℚ
deriving DecidableEq

namespace BrentDekker

/-- method_init. -/
def method_init : BrentDekker :=
  { state := BrentDekkerState.initial, macheps := 1/10000000000, t := 1/1000000,
    a := 0, b := 0, c := 0, f_a := 0, f_b := 0, f_c := 0, d := 0, e := 0 }

/-- The Brent-Dekker update of a, b, c (method_value lines 211-304), performed
once the bracket is established; x and value are the incoming point and its
objective value. -/
def bd_update (p : BrentDekker) (x value : ℚ) : BrentDekker :=
  let a0 := p.a
  let b0 := x
  let f_a0 := p.f_a
  let f_b0 := value
  let reinit := (0 < f_b0 ∧ 0 < p.f_c) ∨ (f_b0 ≤ 0 ∧ p.f_c ≤ 0) ∨
      p.state = BrentDekkerState.starting
  let c1 := if reinit then a0 else p.c
  let f_c1 := if reinit then f_a0 else p.f_c
  let d1 := if reinit then b0 - a0 else p.d
  let e1 := if reinit then b0 - a0 else p.e
  let st1 := if p.state = BrentDekkerState.starting then BrentDekkerState.running
    else p.state
  let rotate := |f_c1| < |f_b0|
  let a2 := if rotate then b0 else a0
  let b2 := if rotate then c1 else b0
  let c2 := if rotate then b0 else c1
  let f_a2 := if rotate then f_b0 else f_a0
  let f_b2 := if rotate then f_c1 else f_b0
  let f_c2 := if rotate then f_b0 else f_c1
  let tol := 2 * p.macheps * |b2| + p.t
  let m := 1/2 * (c2 - b2)
  if tol < |m| ∧ f_b2 ≠ 0 then
    let step :=
      if |e1| < tol ∨ |f_a2| ≤ |f_b2| then (m, m)
      else
        let s := f_b2 / f_a2
        let pq : ℚ × ℚ :=
          if a2 = c2 then (2 * m * s, 1 - s)
          else
            let q0 := f_a2 / f_c2
            let r0 := f_b2 / f_c2
            (s * (2 * m * q0 * (q0 - r0) - (b2 - a2) * (r0 - 1)),
             (q0 - 1) * (r0 - 1) * (s - 1))
        let pq2 := if 0 < pq.1 then (pq.1, -pq.2) else (-pq.1, pq.2)
        let s2 := e1
        let e2 := d1
        if 2 * pq2.1 < 3 * m * pq2.2 - |tol * pq2.2| ∧
            pq2.1 < |1/2 * s2 * pq2.2| then
          (pq2.1 / pq2.2, e2)
        else
          (m, m)
    let d3 := step.1
    let e3 := step.2
    let a3 := b2
    let f_a3 := f_b2
    let b3 := b2 + (if tol < |d3| then d3 else (if 0 < m then tol else -tol))
    { p with state := st1, a := a3, b := b3, c := c2,
             f_a := f_a3, f_b := f_b2, f_c := f_c2, d := d3, e := e3 }
  else
    { p with state := BrentDekkerState.done, a := a2, b := b2, c := c2,
             f_a := f_a2, f_b := f_b2, f_c := f_c2, d := d1, e := e1 }

/-- method_value, transcribed from brent-dekker.c lines 175-305.  In the
initial2 state a failed bracket check moves the method to the done state and
reports failure. -/
def method_value (p : BrentDekker) (x value : ℚ) : FntStatus × BrentDekker :=
  if p.state = BrentDekkerState.initial then
    (FntStatus.success,
     { p with a := x, f_a := value, state := BrentDekkerState.initial2 })
  else if p.state = BrentDekkerState.initial2 then
    let p2 := { p with b := x, f_b := value }
    if 0 < p2.f_a * p2.f_b then
      (FntStatus.failure, { p2 with state := BrentDekkerState.done })
    else
      (FntStatus.success,
       bd_update { p2 with state := BrentDekkerState.starting } x value)
  else
    (FntStatus.success, bd_update p x value)

/-- method_next. -/
def method_next (p : BrentDekker) : FntStatus × ℚ :=
  if p.state = BrentDekkerState.initial then (FntStatus.success, p.a)
  else (FntStatus.success, p.b)

/-- method_done. -/
def method_done (p : BrentDekker) : FntStatus :=
  if p.state = BrentDekkerState.done then FntStatus.done else FntStatus.cont

end BrentDekker

/-! ## Driver (fnt.c) -/

namespace Driver

/-- fnt_best from the earlier fnt.c translation unit (lines 474-490): after the
null checks it is an unimplemented stub, ret = FNT_FAILURE under a TODO. -/
def fnt_best (ctxNonNull nextNonNull vecNonNull : Bool) : FntStatus :=
  if ¬ctxNonNull then FntStatus.failure
  else if ¬nextNonNull then FntStatus.failure
  else if ¬vecNonNull then FntStatus.failure
  else FntStatus.failure

/-- The parts of fnt_context consulted by fnt_result: what the bound method's
done entry point reports, and its optional result entry point (None models a
NULL function pointer). -/
structure DriverCtx where
  doneStatus : FntStatus
  resultFn : Option (String → ℚ → FntStatus × ℚ)

/-- fnt_done: forwards to the method. -/
def fnt_done (ctx : DriverCtx) : FntStatus := ctx.doneStatus

/-- fnt_result from the current fnt.c translation unit (lines 1027-1046):
success immediately when the method has no result entry point; otherwise the
completion check runs before the method is consulted. -/
def fnt_result (ctx : DriverCtx) (id : String) (out : ℚ) : FntStatus × ℚ :=
  match ctx.resultFn with
  | none => (FntStatus.success, out)
  | some f =>
    if fnt_done ctx ≠ FntStatus.done then (FntStatus.failure, out)
    else f id out

end Driver

/-! ## Concrete states used by the theorems below -/

/-- A freshly initialized bisection handle. -/
def bisectEx0 : Bisection := Bisection.method_init

/-- After the first next (emits a = lower bound). -/
def bisectEx1 : Bisection := (Bisection.method_next bisectEx0).2.1

/-- After reporting f(-1000000) = -1. -/
def bisectEx2 : Bisection := (Bisection.method_value bisectEx1 (-1000000) (-1)).2

/-- After reporting f(1000000) = 1 (bracket established, running). -/
def bisectEx3 : Bisection := (Bisection.method_value bisectEx2 1000000 1).2

/-- After reporting f(0) = 0 at the midpoint: exact root, state done. -/
def bisectEx4 : Bisection := (Bisection.method_value bisectEx3 0 0).2

/-- A trapezoidal handle in the done state. -/
def trapDoneEx : Trapezoidal := { Trapezoidal.method_init with state := TrapState.done }

/-- A simpson handle in the done state. -/
def simpsonDoneEx : Simpson := { Simpson.method_init with state := SimpsonState.done }

/-- Simpson configured for f over the interval of rationals 0 to 1 with n = 2. -/
def simpsonX2 : Simpson := { Simpson.method_init with x_0 := 0, x_1 := 1, n := 2 }

/-- After f(0) = 0. -/
def simpsonX2a : Simpson := (Simpson.method_value simpsonX2 0 0).getD Simpson.method_init

/-- After f(1/2) = 1/4. -/
def simpsonX2b : Simpson :=
  (Simpson.method_value simpsonX2a (1/2) (1/4)).getD Simpson.method_init

/-- After f(1) = 1: done, area computed. -/
def simpsonX2c : Simpson := (Simpson.method_value simpsonX2b 1 1).getD Simpson.method_init

/-- A simpson handle in the running state with an even interior index. -/
def simpsonEvenEx : Simpson :=
  { Simpson.method_init with x_0 := 0, x_1 := 1, n := 4,
                             state := SimpsonState.running, curr_subinterval := 2 }

/-- A one-dimensional differential-evolution handle as built by method_init. -/
def deDim1 : De := De.method_init 1

/-- A Nelder-Mead handle caught in the shrink state: the simplex is sorted
ascending, and the cached reflection point x_r differs from the lowest point. -/
def nmShrinkEx : NelderMead :=
  { NelderMead.method_init 2 with
      state := NmState.shrink,
      simplex := [⟨[0, 0], 0⟩, ⟨[1, 0], 1⟩, ⟨[0, 1], 2⟩],
      x_r := ⟨[3, 3], 3/2⟩ }

/-- The same handle one phase later, in the shrink-second state. -/
def nmShrink2Ex : NelderMead :=
  { nmShrinkEx with state := NmState.shrink2, s_shrink := [2, 3/2] }

/-- A Brent-Dekker handle that has consumed its first evaluation f(1) = 2. -/
def bdEx : BrentDekker :=
  { BrentDekker.method_init with state := BrentDekkerState.initial2, a := 1, f_a := 2 }

/-- A driver context whose bound method provides no result entry point. -/
def ctxNoResult : Driver.DriverCtx :=
  { doneStatus := FntStatus.cont, resultFn := none }

/-- A driver context with a result entry point but an unfinished method. -/
def ctxWithResult : Driver.DriverCtx :=
  { doneStatus := FntStatus.cont,
    resultFn := some (fun _ o => (FntStatus.success, o)) }

/-! ## Theorems -/

/-- Helper: strncmp over the full length of the first string succeeds exactly
when the first string can be extended to the second. -/
theorem strncmpEq_iff_append (a : List Char) : ∀ b : List Char,
    strncmpEq a b a.length = true ↔ ∃ t, a ++ t = b := by
  induction a with
  | nil =>
    intro b
    simp [strncmpEq]
  | cons x xs ih =>
    intro b
    cases b with
    | nil =>
      simp [strncmpEq]
    | cons y ys =>
      constructor
      · intro h
        rw [List.length_cons, strncmpEq] at h
        by_cases hxy : x = y
        · subst hxy
          simp only [if_pos rfl] at h
          obtain ⟨t, ht⟩ := (ih ys).mp h
          exact ⟨t, by simp [ht]⟩
        · simp [if_neg hxy] at h
      · rintro ⟨t, ht⟩
        obtain ⟨hxy, hys⟩ := by simpa using ht
        subst hxy
        rw [List.length_cons, strncmpEq, if_pos rfl]
        exact (ih ys).mpr ⟨t, hys⟩

/-- C1: the driver never tracks a best-seen pair; fnt_best (fnt.c lines
474-490) is an unimplemented TODO stub that returns FNT_FAILURE for every
combination of argument null-ness, so it never succeeds, contradicting the
best-seen contract and the fnt.h documentation of fnt_best. -/
theorem c1_fnt_best_is_stub :
    ∀ c nn vv : Bool, Driver.fnt_best c nn vv = FntStatus.failure ∧
      Driver.fnt_best c nn vv ≠ FntStatus.success := by decide

/-- C1 witness: fnt_best with a live context, method and vector still fails. -/
theorem c1_witness :
    Driver.fnt_best true true true = FntStatus.failure ∧
    Driver.fnt_best true true true ≠ FntStatus.success :=
  c1_fnt_best_is_stub true true true

/-- Helper: the bisection state after the first next call. -/
theorem bisectEx1_eval :
    bisectEx1 =
      { state := BisectionState.initial, upper_bound := 1000000,
        lower_bound := -1000000, x_tol := 1/1000000, f_tol := 1/1000000,
        a := -1000000, b := 1000000, f_a := 0, f_b := 0, root_x := 0 } := by
  simp [bisectEx1, bisectEx0, Bisection.method_next, Bisection.method_init] <;>
    norm_num

/-- Helper: after f(-1000000) = -1. -/
theorem bisectEx2_eval :
    bisectEx2 =
      { state := BisectionState.initial2, upper_bound := 1000000,
        lower_bound := -1000000, x_tol := 1/1000000, f_tol := 1/1000000,
        a := -1000000, b := 1000000, f_a := -1, f_b := 0, root_x := 0 } := by
  rw [bisectEx2, bisectEx1_eval]
  simp [Bisection.method_value] <;> norm_num

/-- Helper: after f(1000000) = 1 the bracket holds and the state is running. -/
theorem bisectEx3_eval :
    bisectEx3 =
      { state := BisectionState.running, upper_bound := 1000000,
        lower_bound := -1000000, x_tol := 1/1000000, f_tol := 1/1000000,
        a := -1000000, b := 1000000, f_a := -1, f_b := 1, root_x := 0 } := by
  rw [bisectEx3, bisectEx2_eval]
  simp [Bisection.method_value] <;> norm_num

/-- Helper: the bisection trace bisectEx4 evaluated to a literal state. -/
theorem bisectEx4_eval :
    bisectEx4 =
      { state := BisectionState.done, upper_bound := 1000000,
        lower_bound := -1000000, x_tol := 1/1000000, f_tol := 1/1000000,
        a := 0, b := 0, f_a := 0, f_b := 0, root_x := 0 } := by
  rw [bisectEx4, bisectEx3_eval]
  simp [Bisection.method_value] <;> norm_num

/-- C2 counterexample: the bisection snapshot reaches its done state (after an
exact root at 0), method_done reports FNT_DONE, and a subsequent method_next
still succeeds (it has no completion check), producing the midpoint instead of
failing.  set_value does fail there, but the claim requires both to fail for
every method. -/
theorem c2_counterexample :
    (Bisection.method_done bisectEx4).1 = FntStatus.done ∧
    bisectEx4.state = BisectionState.done ∧
    (Bisection.method_next bisectEx4).1 = FntStatus.success ∧
    (Bisection.method_next bisectEx4).2.2 = 0 := by
  rw [bisectEx4_eval]
  simp [Bisection.method_done, Bisection.method_next] <;> norm_num

/-- C2 amended: for the trapezoidal and simpson methods, once the state is
done (so method_done reports complete), both method_next and method_value
fail; the guarantee does not extend to every method (see the counterexample,
where the bisection snapshot's next still succeeds; its set_value does fail). -/
theorem c2_next_value_fail_after_done (t : Trapezoidal) (s : Simpson)
    (vec fv : ℚ) (ht : t.state = TrapState.done)
    (hs : s.state = SimpsonState.done) :
    Trapezoidal.method_done t = FntStatus.done ∧
    Trapezoidal.method_next t = none ∧
    Trapezoidal.method_value t vec fv = none ∧
    Simpson.method_done s = FntStatus.done ∧
    Simpson.method_next s = none ∧
    Simpson.method_value s vec fv = none := by
  refine ⟨?_, ?_, ?_, ?_, ?_, ?_⟩ <;>
    simp [Trapezoidal.method_done, Trapezoidal.method_next,
          Trapezoidal.method_value, Simpson.method_done, Simpson.method_next,
          Simpson.method_value, ht, hs]

/-- C2 witness: the amended theorem applied to concrete done states. -/
theorem c2_witness :
    Trapezoidal.method_done trapDoneEx = FntStatus.done ∧
    Trapezoidal.method_next trapDoneEx = none ∧
    Trapezoidal.method_value trapDoneEx 3 7 = none ∧
    Simpson.method_done simpsonDoneEx = FntStatus.done ∧
    Simpson.method_next simpsonDoneEx = none ∧
    Simpson.method_value simpsonDoneEx 3 7 = none :=
  c2_next_value_fail_after_done trapDoneEx simpsonDoneEx 3 7 rfl rfl

/-- C3: differential evolution does NOT stay in the initial state for the
whole first generation.  Evaluating method_value (de.c lines 974-1032) on a
freshly initialized one-dimensional handle (NP = 10): the very first
set_value already flips the state from initial to running (the acceptance
branch contains the transition), with the index at 1, far short of NP, making
the transition inside the i == NP block dead code. -/
theorem c3_de_initial_state_left_early :
    deDim1.state = DeState.initial ∧ deDim1.NP = 10 ∧
    (De.method_value deDim1 [2] 5).1 = FntStatus.success ∧
    (De.method_value deDim1 [2] 5).2.state = DeState.running ∧
    (De.method_value deDim1 [2] 5).2.current = 1 := by decide

/-- Helper: simpsonX2a evaluated to a literal state. -/
theorem simpsonX2a_eval :
    simpsonX2a =
      { state := SimpsonState.running, first_fx := 0, sum1 := 0, sum2 := 0,
        last_fx := 0, curr_subinterval := 1, x_0 := 0, x_1 := 1, n := 2,
        area := 0 } := by
  simp [simpsonX2a, simpsonX2, Simpson.method_value, Simpson.method_init] <;>
    norm_num

/-- Helper: simpsonX2b evaluated to a literal state. -/
theorem simpsonX2b_eval :
    simpsonX2b =
      { state := SimpsonState.running, first_fx := 0, sum1 := 0, sum2 := 1/4,
        last_fx := 0, curr_subinterval := 2, x_0 := 0, x_1 := 1, n := 2,
        area := 0 } := by
  rw [simpsonX2b, simpsonX2a_eval]
  simp [Simpson.method_value] <;> norm_num

/-- Helper: simpsonX2c evaluated to a literal state; the area is exactly 1/3. -/
theorem simpsonX2c_eval :
    simpsonX2c =
      { state := SimpsonState.done, first_fx := 0, sum1 := 0, sum2 := 1/4,
        last_fx := 1, curr_subinterval := 2, x_0 := 0, x_1 := 1, n := 2,
        area := 1/3 } := by
  rw [simpsonX2c, simpsonX2b_eval]
  simp [Simpson.method_value] <;> norm_num

/-- C5: Simpson's rule records the first sample, routes interior samples by
parity of the subinterval index (even to S1, odd to S2), closes with
area = (h/3)(f_0 + f_n + 2 S1 + 4 S2) where h = (x_1 - x_0)/n, and on
f(x) = x^2 over [0, 1] with n = 2 the emitted abscissas are 0, 1/2, 1 and the
result named area is exactly 1/3. -/
theorem c5_simpson_accumulation_and_third (s : Simpson) (vec fv : ℚ)
    (hini : s.state = SimpsonState.initial)
    (srun : Simpson) (hrun : srun.state = SimpsonState.running)
    (hlt : srun.curr_subinterval < srun.n)
    (sfin : Simpson) (hfin : sfin.state = SimpsonState.running)
    (hge : sfin.n ≤ sfin.curr_subinterval) :
    Simpson.method_value s vec fv =
      some { s with first_fx := fv, sum1 := 0, sum2 := 0,
                    curr_subinterval := 1, state := SimpsonState.running } ∧
    (srun.curr_subinterval % 2 = 0 →
      Simpson.method_value srun vec fv =
        some { srun with sum1 := srun.sum1 + fv,
                         curr_subinterval := srun.curr_subinterval + 1 }) ∧
    (srun.curr_subinterval % 2 ≠ 0 →
      Simpson.method_value srun vec fv =
        some { srun with sum2 := srun.sum2 + fv,
                         curr_subinterval := srun.curr_subinterval + 1 }) ∧
    Simpson.method_value sfin vec fv =
      some { sfin with last_fx := fv,
                       area := (sfin.x_1 - sfin.x_0) / (sfin.n : ℚ) / 3
                         * (sfin.first_fx + fv + 2 * sfin.sum1 + 4 * sfin.sum2),
                       state := SimpsonState.done } ∧
    Simpson.method_next simpsonX2 = some 0 ∧
    Simpson.method_next simpsonX2a = some (1/2) ∧
    Simpson.method_next simpsonX2b = some 1 ∧
    simpsonX2c.state = SimpsonState.done ∧
    simpsonX2c.area = 1/3 ∧
    (Simpson.method_result simpsonX2c "area" 0).2 = 1/3 := by
  have hne : s.state ≠ SimpsonState.done := by simp [hini]
  have hrne : srun.state ≠ SimpsonState.done := by simp [hrun]
  have hrni : srun.state ≠ SimpsonState.initial := by simp [hrun]
  have hfne : sfin.state ≠ SimpsonState.done := by simp [hfin]
  have hfni : sfin.state ≠ SimpsonState.initial := by simp [hfin]
  refine ⟨?_, ?_, ?_, ?_, ?_, ?_, ?_, ?_, ?_, ?_⟩
  · rw [Simpson.method_value, if_neg hne, if_pos hini]
  · intro hpar
    rw [Simpson.method_value, if_neg hrne, if_neg hrni,
        if_neg (not_le.mpr hlt), if_pos hpar]
  · intro hpar
    rw [Simpson.method_value, if_neg hrne, if_neg hrni,
        if_neg (not_le.mpr hlt), if_neg hpar]
  · rw [Simpson.method_value, if_neg hfne, if_neg hfni, if_pos hge]
  · simp [Simpson.method_next, simpsonX2, Simpson.method_init] <;> norm_num
  · rw [simpsonX2a_eval]
    simp [Simpson.method_next] <;> norm_num
  · rw [simpsonX2b_eval]
    simp [Simpson.method_next] <;> norm_num
  · rw [simpsonX2c_eval]
  · rw [simpsonX2c_eval]
  · rw [simpsonX2c_eval]
    rfl

/-- C5 witness: the theorem applied to concrete trace states. -/
theorem c5_witness :
    Simpson.method_value simpsonX2 9 0 =
      some { simpsonX2 with first_fx := 0, sum1 := 0, sum2 := 0,
                            curr_subinterval := 1,
                            state := SimpsonState.running } ∧
    (simpsonEvenEx.curr_subinterval % 2 = 0 →
      Simpson.method_value simpsonEvenEx 9 0 =
        some { simpsonEvenEx with sum1 := simpsonEvenEx.sum1 + 0,
                                  curr_subinterval :=
                                    simpsonEvenEx.curr_subinterval + 1 }) ∧
    (simpsonEvenEx.curr_subinterval % 2 ≠ 0 →
      Simpson.method_value simpsonEvenEx 9 0 =
        some { simpsonEvenEx with sum2 := simpsonEvenEx.sum2 + 0,
                                  curr_subinterval :=
                                    simpsonEvenEx.curr_subinterval + 1 }) ∧
    Simpson.method_value simpsonX2b 9 0 =
      some { simpsonX2b with
              last_fx := 0,
              area := (simpsonX2b.x_1 - simpsonX2b.x_0) / (simpsonX2b.n : ℚ) / 3
                * (simpsonX2b.first_fx + 0 + 2 * simpsonX2b.sum1
                  + 4 * simpsonX2b.sum2),
              state := SimpsonState.done } ∧
    Simpson.method_next simpsonX2 = some 0 ∧
    Simpson.method_next simpsonX2a = some (1/2) ∧
    Simpson.method_next simpsonX2b = some 1 ∧
    simpsonX2c.state = SimpsonState.done ∧
    simpsonX2c.area = 1/3 ∧
    (Simpson.method_result simpsonX2c "area" 0).2 = 1/3 :=
  c5_simpson_accumulation_and_third simpsonX2 9 0 rfl
    simpsonEvenEx rfl (by decide) simpsonX2b (by rw [simpsonX2b_eval])
    (by rw [simpsonX2b_eval])

/-- C4 counterexample: in the concrete shrink state nmShrinkEx (lowest point
l = (0,0), s = (1,0), h = (0,1), cached reflection point x_r = (3,3)),
method_next emits (x_r + h)/2 = (3/2, 2) and stores (x_r + s)/2 = (2, 3/2) in
the scratch vector; neither equals the midpoint with the lowest point
claimed by the specification ((h + l)/2 = (0, 1/2), (s + l)/2 = (1/2, 0)). -/
theorem c4_counterexample :
    (NelderMead.method_next nmShrinkEx [0, 0]).2.2 = [3/2, 2] ∧
    (NelderMead.method_next nmShrinkEx [0, 0]).2.1.s_shrink = [2, 3/2] ∧
    (NelderMead.method_next nmShrinkEx [0, 0]).2.2 ≠
      fnt_vect_scale (fnt_vect_add [0, 1] [0, 0]) (1/2) ∧
    (NelderMead.method_next nmShrinkEx [0, 0]).2.1.s_shrink ≠
      fnt_vect_scale (fnt_vect_add [1, 0] [0, 0]) (1/2) := by
  refine ⟨?_, ?_, ?_, ?_⟩ <;>
    simp [NelderMead.method_next, nmShrinkEx, NelderMead.method_init,
          fnt_vect_add, fnt_vect_scale, fnt_vect_sub] <;>
    norm_num

/-- C4 amended: the two-phase shrink replaces only h and s, and the midpoints
are taken with the cached reflection sample x_r, not with the lowest point:
in the shrink state next emits (x_r + h)/2 and stores (x_r + s)/2 in the
scratch vector s_shrink; receiving the value overwrites the last simplex slot
and moves to shrink-second; there next emits the stored scratch vector, and
receiving its value overwrites the second-to-last slot and returns the state
to reflect. -/
theorem c4_shrink_two_phase (nm nm2 : NelderMead) (buf params : List ℚ)
    (value : ℚ)
    (hlen : nm.simplex.length = nm.dimensions + 1)
    (hst : nm.state = NmState.shrink)
    (hlen2 : nm2.simplex.length = nm2.dimensions + 1)
    (hst2 : nm2.state = NmState.shrink2) :
    NelderMead.method_next nm buf =
      (FntStatus.success,
       { nm with s_shrink := fnt_vect_scale (fnt_vect_add nm.x_r.params
           (nm.simplex.getD (nm.simplex.length - 2) ⟨[], 0⟩).params) (1/2) },
       fnt_vect_scale (fnt_vect_add nm.x_r.params
         (nm.simplex.getD (nm.simplex.length - 1) ⟨[], 0⟩).params) (1/2)) ∧
    NelderMead.method_value nm params value =
      (FntStatus.success,
       { nm with iterations := nm.iterations + 1,
                 simplex := nm.simplex.set (nm.simplex.length - 1) ⟨params, value⟩,
                 state := NmState.shrink2 }) ∧
    NelderMead.method_next nm2 buf =
      (FntStatus.success,
       { nm2 with s_shrink := List.replicate nm2.dimensions 0 }, nm2.s_shrink) ∧
    NelderMead.method_value nm2 params value =
      (FntStatus.success,
       { nm2 with iterations := nm2.iterations + 1,
                  simplex := nm2.simplex.set (nm2.simplex.length - 2) ⟨params, value⟩,
                  state := NmState.reflect }) := by
  refine ⟨?_, ?_, ?_, ?_⟩
  · simp [NelderMead.method_next, hst, hlen]
  · simp [NelderMead.method_value, hst]
  · simp [NelderMead.method_next, hst2, hlen2]
  · simp [NelderMead.method_value, hst2]

/-- C4 witness: the amended theorem applied at the concrete shrink states. -/
theorem c4_witness :
    NelderMead.method_next nmShrinkEx [0, 0] =
      (FntStatus.success,
       { nmShrinkEx with s_shrink := fnt_vect_scale (fnt_vect_add
           nmShrinkEx.x_r.params
           (nmShrinkEx.simplex.getD (nmShrinkEx.simplex.length - 2)
             ⟨[], 0⟩).params) (1/2) },
       fnt_vect_scale (fnt_vect_add nmShrinkEx.x_r.params
         (nmShrinkEx.simplex.getD (nmShrinkEx.simplex.length - 1)
           ⟨[], 0⟩).params) (1/2)) ∧
    NelderMead.method_value nmShrinkEx [5, 5] (3/4) =
      (FntStatus.success,
       { nmShrinkEx with iterations := nmShrinkEx.iterations + 1,
                         simplex := nmShrinkEx.simplex.set
                           (nmShrinkEx.simplex.length - 1) ⟨[5, 5], 3/4⟩,
                         state := NmState.shrink2 }) ∧
    NelderMead.method_next nmShrink2Ex [0, 0] =
      (FntStatus.success,
       { nmShrink2Ex with s_shrink := List.replicate nmShrink2Ex.dimensions 0 },
       nmShrink2Ex.s_shrink) ∧
    NelderMead.method_value nmShrink2Ex [5, 5] (3/4) =
      (FntStatus.success,
       { nmShrink2Ex with iterations := nmShrink2Ex.iterations + 1,
                          simplex := nmShrink2Ex.simplex.set
                            (nmShrink2Ex.simplex.length - 2) ⟨[5, 5], 3/4⟩,
                          state := NmState.reflect }) :=
  c4_shrink_two_phase nmShrinkEx nmShrink2Ex [0, 0] [5, 5] (3/4) rfl rfl rfl rfl

/-- C6: Brent-Dekker in the initial2 state (the second of the two initial
evaluations): when f(a) * f(b) > 0 the method stores b and f(b), reports
failure, and transitions to the done state, from which method_done reports
complete. -/
theorem c6_bracket_invalid_to_done (p : BrentDekker) (x value : ℚ)
    (hst : p.state = BrentDekkerState.initial2)
    (hbr : 0 < p.f_a * value) :
    BrentDekker.method_value p x value =
      (FntStatus.failure,
       { p with b := x, f_b := value, state := BrentDekkerState.done }) ∧
    BrentDekker.method_done (BrentDekker.method_value p x value).2 =
      FntStatus.done := by
  constructor
  · simp [BrentDekker.method_value, hst, hbr]
  · simp [BrentDekker.method_value, BrentDekker.method_done, hst, hbr]

/-- C6 witness: the theorem applied to a concrete handle with f(a) = 2 and a
second evaluation f(3) = 5 of the same sign. -/
theorem c6_witness :
    BrentDekker.method_value bdEx 3 5 =
      (FntStatus.failure,
       { bdEx with b := 3, f_b := 5, state := BrentDekkerState.done }) ∧
    BrentDekker.method_done (BrentDekker.method_value bdEx 3 5).2 =
      FntStatus.done :=
  c6_bracket_invalid_to_done bdEx 3 5 rfl
    (by norm_num [bdEx, BrentDekker.method_init])

/-- C7 counterexample: with no start point and no bounds, the uniform branch
of de_fill_first_gen samples lower + rnd * (upper - lower) with lower = -1 and
upper = 1.  The random draw RAND_MAX yields the component 1, which lies
outside the claimed interval [-1/2, 1/2]. -/
theorem c7_counterexample :
    deDim1.has_start_point = false ∧ deDim1.has_lower_bounds = false ∧
    deDim1.has_upper_bounds = false ∧
    De.de_fill_first_gen deDim1 [deRandMax] = [1] ∧
    ¬(-(1/2 : ℚ) ≤ 1 ∧ (1 : ℚ) ≤ 1/2) := by
  refine ⟨rfl, rfl, rfl, ?_, by norm_num⟩
  simp [De.de_fill_first_gen, De.de_fill_component, deDim1, De.method_init,
        deRandMax, List.range_succ] <;>
    norm_num

/-- C7 amended: with no start point and no bounds, every component of an
initial-generation vector lies in [-1, 1] (the draws satisfy
0 ≤ r ≤ RAND_MAX, and each component is -1 + (r / RAND_MAX) * 2). -/
theorem c7_initial_gen_in_unit_box (p : De) (rands : List ℕ) (c : ℚ)
    (hs : p.has_start_point = false) (hl : p.has_lower_bounds = false)
    (hu : p.has_upper_bounds = false)
    (hr : ∀ r ∈ rands, r ≤ deRandMax)
    (hc : c ∈ De.de_fill_first_gen p rands) :
    -1 ≤ c ∧ c ≤ 1 := by
  rw [De.de_fill_first_gen] at hc
  simp only [List.mem_map, List.mem_range] at hc
  obtain ⟨j, hj, hcomp⟩ := hc
  have hrle : rands.getD j 0 ≤ deRandMax := by
    rcases Nat.lt_or_ge j rands.length with hlt | hge
    · refine hr _ ?_
      rw [List.getD_eq_getElem _ _ hlt]
      exact List.getElem_mem hlt
    · rw [List.getD_eq_default _ _ hge]
      exact Nat.zero_le _
  set r := rands.getD j 0 with hrdef
  have h0 : (0 : ℚ) ≤ (r : ℚ) / (deRandMax : ℚ) := by positivity
  have h1 : (r : ℚ) / (deRandMax : ℚ) ≤ 1 := by
    rw [div_le_one (by norm_num [deRandMax])]
    exact_mod_cast hrle
  rw [De.de_fill_component] at hcomp
  simp only [hs, hl, hu, Bool.false_eq_true, if_false, false_and] at hcomp
  subst hcomp
  constructor <;> nlinarith [h0, h1]

/-- C7 witness: the amended theorem applied to a concrete draw r = 0, whose
component is -1. -/
theorem c7_witness : -1 ≤ (-1 : ℚ) ∧ (-1 : ℚ) ≤ 1 :=
  c7_initial_gen_in_unit_box deDim1 [0] (-1) rfl rfl rfl
    (by
      intro r hrm
      simp at hrm
      simp [hrm, deRandMax])
    (by
      simp [De.de_fill_first_gen, De.de_fill_component, deDim1, De.method_init,
            deRandMax])

/-- C8: hyper-parameter setting is not atomic with its error report.  For the
trapezoidal, simpson and secant methods, method_hparam_set with a recognized
identifier stores the new value into the method state and still returns
FNT_FAILURE (the FNT_HPARAM_SET macro does not return on a match), so a
failure from hparam_set does not imply the configuration is unchanged. -/
theorem c8_hparam_set_stores_then_fails :
    ∀ (t : Trapezoidal) (s : Simpson) (sec : Secant) (v : CValue),
      Trapezoidal.method_hparam_set t "lower" v =
        (FntStatus.failure, { t with x_0 := v.asDouble }) ∧
      Trapezoidal.method_hparam_set t "upper" v =
        (FntStatus.failure, { t with x_1 := v.asDouble }) ∧
      Trapezoidal.method_hparam_set t "subintervals" v =
        (FntStatus.failure, { t with n := v.asInt }) ∧
      Trapezoidal.method_hparam_set t "n" v =
        (FntStatus.failure, { t with n := v.asInt }) ∧
      Simpson.method_hparam_set s "lower" v =
        (FntStatus.failure, { s with x_0 := v.asDouble }) ∧
      Simpson.method_hparam_set s "n" v =
        (FntStatus.failure, { s with n := v.asInt }) ∧
      Secant.method_hparam_set sec "x_0" v =
        (FntStatus.failure, { sec with x_0 := v.asDouble }) :=
  fun t s sec v => ⟨rfl, rfl, rfl, rfl, rfl, rfl, rfl⟩

/-- C9: hyper-parameter and result identifiers are matched by prefix:
strncmp(name, id, strlen(name)) == 0 holds exactly when the identifier
extends the parameter name, and consequently the identifier "lowercase"
configures (and reads back) the "lower" parameter of the trapezoidal method
through the FNT_HPARAM_SET / FNT_HPARAM_GET macros. -/
theorem c9_identifier_prefix_matching :
    (∀ a b : List Char, strncmpEq a b a.length = true ↔ ∃ tail, a ++ tail = b) ∧
    fntMatch "lower" "lowercase" = true ∧
    (∀ (t : Trapezoidal) (v : CValue),
      (Trapezoidal.method_hparam_set t "lowercase" v).2.x_0 = v.asDouble ∧
      (Trapezoidal.method_hparam_get t "lowercase" v).2.asDouble = t.x_0) :=
  ⟨strncmpEq_iff_append, rfl, fun t v => ⟨rfl, rfl⟩⟩

/-- C10: when the bound method has no result entry point, fnt_result returns
success immediately for any identifier and in any completion state, writing
nothing through the output pointer; the not-ready check runs only when the
method does supply a result entry point. -/
theorem c10_result_skips_done_check :
    (∀ (ctx : Driver.DriverCtx) (id : String) (out : ℚ),
      ctx.resultFn = none →
      Driver.fnt_result ctx id out = (FntStatus.success, out)) ∧
    (∀ (ctx : Driver.DriverCtx) (f : String → ℚ → FntStatus × ℚ)
        (id : String) (out : ℚ),
      ctx.resultFn = some f → Driver.fnt_done ctx ≠ FntStatus.done →
      Driver.fnt_result ctx id out = (FntStatus.failure, out)) := by
  constructor
  · intro ctx id out h
    simp [Driver.fnt_result, h]
  · intro ctx f id out h hd
    simp [Driver.fnt_result, h, hd]

/-- C10 witness: the theorem applied to concrete contexts, one without a
result entry point (still running, yet fnt_result succeeds) and one with a
result entry point but unfinished (fnt_result fails). -/
theorem c10_witness :
    Driver.fnt_result ctxNoResult "area" 7 = (FntStatus.success, 7) ∧
    Driver.fnt_result ctxWithResult "area" 7 = (FntStatus.failure, 7) :=
  ⟨c10_result_skips_done_check.1 ctxNoResult "area" 7 rfl,
   c10_result_skips_done_check.2 ctxWithResult _ "area" 7 rfl
     (by simp [Driver.fnt_done, ctxWithResult])⟩
